import Mathlib

/-!
Verification of the SerLCD SPI display driver (src/lib.rs).

The driver is shallowly embedded as follows.  The driver state `St` holds
the two mirrored configuration bytes (`display_control`, `display_mode`),
per-capability call counters, and the trace of observable interactions
(`Event`s: chip-select assert/deassert, one transmitted byte, one blocking
delay).  The three injected capabilities (SPI bus, chip-select pin, delay
source) are modelled by an environment `Env` of per-call success oracles;
a failing pin call yields `Error.Pin`, a failing SPI transfer yields
`Error.Spi`, and delays are infallible, exactly as in the source.

Every driver method is a straight-line sequence of the four primitives
(`Prim`), mirroring the Rust bodies line by line; `runPrims` interprets
such a sequence, stopping at the first failing primitive, as the `?`
operator does in the source.
-/

namespace SerLCD

/-- Source constant: device geometry, `MAX_ROWS = 4`. -/
def MAX_ROWS : Nat := 4

/-- Source constant: device geometry, `MAX_COLUMNS = 20` (never consulted by the code). -/
def MAX_COLUMNS : Nat := 20

/-- Source constant: the special-command marker byte, 254 = 0xFE. -/
def SPECIAL_COMMAND : Nat := 254

/-- Source constant: the setting-command marker byte, 0x7C. -/
def SETTING_COMMAND : Nat := 0x7c

/-- Source constant: the clear-display setting command, 0x2D. -/
def CLEAR_COMMAND : Nat := 0x2d

/-- Source constant: return-home special command. -/
def LCD_RETURNHOME : Nat := 0x02

/-- Source constant: entry-mode-set special command. -/
def LCD_ENTRYMODESET : Nat := 0x04

/-- Source constant: display-control special command. -/
def LCD_DISPLAYCONTROL : Nat := 0x08

/-- Source constant: set-DDRAM-address special command base. -/
def LCD_SETDDRAMADDR : Nat := 0x80

/-- Source constant: entry-mode flag, entry left. -/
def LCD_ENTRYLEFT : Nat := 0x02

/-- Source constant: entry-mode flag, shift decrement. -/
def LCD_ENTRYSHIFTDECREMENT : Nat := 0x00

/-- Source constant: display-control flag, display on. -/
def LCD_DISPLAYON : Nat := 0x04

/-- Source constant: display-control flag, cursor off. -/
def LCD_CURSOROFF : Nat := 0x00

/-- Source constant: display-control flag, cursor on. -/
def LCD_CURSORON : Nat := 0x02

/-- Source constant: display-control flag, blink off. -/
def LCD_BLINKOFF : Nat := 0x00

/-- Source constant: display-control flag, blink on (never used by any method). -/
def LCD_BLINKON : Nat := 0x01

/-- Bitwise complement at u8 width: the Rust `!` operator on a `u8` value. -/
def u8not (b : Nat) : Nat := 0xff ^^^ b

/-- One observable interaction of the driver with its capabilities. -/
inductive Event where
  | csLow : Event
  | csHigh : Event
  | byte : Nat → Event
  | delay : Nat → Event
deriving DecidableEq

/-- Driver state: the two mirrored configuration bytes, one call counter per
fallible capability, and the accumulated interaction trace. -/
structure St where
  display_control : Nat
  display_mode : Nat
  lowCnt : Nat
  highCnt : Nat
  spiCnt : Nat
  trace : List Event
deriving DecidableEq

/-- Environment: per-call success oracles for the chip-select pin
(set-low and set-high) and the SPI bus; the delay source is infallible. -/
structure Env where
  lowOk : Nat → Bool
  highOk : Nat → Bool
  spiOk : Nat → Bool

/-- The driver's error type: `Spi` wraps a bus/transfer failure, `Pin`
wraps a select-line failure. -/
inductive Error where
  | Spi : Error
  | Pin : Error
deriving DecidableEq

/-- The four primitive capability calls a driver method can make. -/
inductive Prim where
  | setLow : Prim
  | setHigh : Prim
  | transmit : Nat → Prim
  | delay : Nat → Prim
deriving DecidableEq

/-- The event a primitive records on success. -/
def eventOf : Prim → Event
  | Prim.setLow => Event.csLow
  | Prim.setHigh => Event.csHigh
  | Prim.transmit b => Event.byte b
  | Prim.delay ms => Event.delay ms

/-- Events recorded by a list of primitives that all succeed. -/
def eventsOf (ps : List Prim) : List Event := ps.map eventOf

/-- State update of one successful primitive call. -/
def applyPrim (p : Prim) (s : St) : St :=
  match p with
  | Prim.setLow => { s with lowCnt := s.lowCnt + 1, trace := s.trace ++ [Event.csLow] }
  | Prim.setHigh => { s with highCnt := s.highCnt + 1, trace := s.trace ++ [Event.csHigh] }
  | Prim.transmit b => { s with spiCnt := s.spiCnt + 1, trace := s.trace ++ [Event.byte b] }
  | Prim.delay ms => { s with trace := s.trace ++ [Event.delay ms] }

/-- Run one primitive: consult the environment's oracle for the current
call index; on failure report the corresponding error kind and record no
event. -/
def runPrim (env : Env) (p : Prim) (s : St) : Except Error Unit × St :=
  match p with
  | Prim.setLow =>
      if env.lowOk s.lowCnt then (Except.ok (), applyPrim Prim.setLow s)
      else (Except.error Error.Pin, { s with lowCnt := s.lowCnt + 1 })
  | Prim.setHigh =>
      if env.highOk s.highCnt then (Except.ok (), applyPrim Prim.setHigh s)
      else (Except.error Error.Pin, { s with highCnt := s.highCnt + 1 })
  | Prim.transmit b =>
      if env.spiOk s.spiCnt then (Except.ok (), applyPrim (Prim.transmit b) s)
      else (Except.error Error.Spi, { s with spiCnt := s.spiCnt + 1 })
  | Prim.delay ms => (Except.ok (), applyPrim (Prim.delay ms) s)

/-- Run a sequence of primitives, stopping at the first failure (the `?`
operator in the source). -/
def runPrims (env : Env) (ps : List Prim) (s : St) : Except Error Unit × St :=
  match ps with
  | [] => (Except.ok (), s)
  | p :: rest =>
      match runPrim env p s with
      | (Except.ok _, s2) => runPrims env rest s2
      | (Except.error e, s2) => (Except.error e, s2)

/-- `begin_transmission`: assert chip select (active low), then delay 10 ms. -/
def begin_transmission : List Prim := [Prim.setLow, Prim.delay 10]

/-- `end_transmission`: deassert chip select, then delay 10 ms. -/
def end_transmission : List Prim := [Prim.setHigh, Prim.delay 10]

/-- Body of `setup()`: one transaction sending special(0x08), special(0x04),
setting(0x2D), then a trailing 50 ms sleep. -/
def setupPrims : List Prim :=
  begin_transmission ++
    [Prim.transmit SPECIAL_COMMAND, Prim.transmit LCD_DISPLAYCONTROL,
     Prim.transmit SPECIAL_COMMAND, Prim.transmit LCD_ENTRYMODESET,
     Prim.transmit SETTING_COMMAND, Prim.transmit CLEAR_COMMAND] ++
  end_transmission ++ [Prim.delay 50]

/-- Body of `command(c)`: one setting-framed transaction, then delay 10 ms. -/
def commandPrims (c : Nat) : List Prim :=
  begin_transmission ++ [Prim.transmit SETTING_COMMAND, Prim.transmit c] ++
  end_transmission ++ [Prim.delay 10]

/-- Body of `special_command(c)`: one special-framed transaction, then delay 50 ms. -/
def special_commandPrims (c : Nat) : List Prim :=
  begin_transmission ++ [Prim.transmit SPECIAL_COMMAND, Prim.transmit c] ++
  end_transmission ++ [Prim.delay 50]

/-- Body of `special_command_count(c, count)`: one transaction containing
`count` repetitions of the special-marker/byte pair, then delay 50 ms. -/
def special_command_countPrims (c : Nat) (count : Nat) : List Prim :=
  begin_transmission ++
    (List.replicate count [Prim.transmit SPECIAL_COMMAND, Prim.transmit c]).flatten ++
  end_transmission ++ [Prim.delay 50]

/-- Body of `clear()`: `command(CLEAR_COMMAND)` followed by an extra 10 ms delay. -/
def clearPrims : List Prim := commandPrims CLEAR_COMMAND ++ [Prim.delay 10]

/-- Body of `home()`: `special_command(LCD_RETURNHOME)`. -/
def homePrims : List Prim := special_commandPrims LCD_RETURNHOME

/-- The source's `row_offsets` table. -/
def row_offsets : List Nat := [0x00, 0x40, 0x14, 0x54]

/-- Body of `set_cursor(col, row)`: clamp the row into `[0, MAX_ROWS-1]`,
then issue one special command whose payload is
`LCD_SETDDRAMADDR | (col + row_offsets[row])`, the u8 addition wrapping
modulo 256. -/
def set_cursorPrims (col row : Nat) : List Prim :=
  special_commandPrims
    (LCD_SETDDRAMADDR ||| ((col + row_offsets.getD (min (max 0 row) (MAX_ROWS - 1)) 0) % 256))

/-- Body of `write(buf)`: one transaction transmitting every byte of the
buffer raw (no markers), then delay 10 ms. -/
def writePrims (buf : List Nat) : List Prim :=
  begin_transmission ++ buf.map Prim.transmit ++ end_transmission ++ [Prim.delay 10]

/-- `setup()`. -/
def setup (env : Env) (s : St) : Except Error Unit × St := runPrims env setupPrims s

/-- `command(c)`. -/
def command (env : Env) (c : Nat) (s : St) : Except Error Unit × St :=
  runPrims env (commandPrims c) s

/-- `special_command(c)`. -/
def special_command (env : Env) (c : Nat) (s : St) : Except Error Unit × St :=
  runPrims env (special_commandPrims c) s

/-- `special_command_count(c, count)`. -/
def special_command_count (env : Env) (c count : Nat) (s : St) : Except Error Unit × St :=
  runPrims env (special_command_countPrims c count) s

/-- `clear()`. -/
def clear (env : Env) (s : St) : Except Error Unit × St := runPrims env clearPrims s

/-- `home()`. -/
def home (env : Env) (s : St) : Except Error Unit × St := runPrims env homePrims s

/-- `set_cursor(col, row)`. -/
def set_cursor (env : Env) (col row : Nat) (s : St) : Except Error Unit × St :=
  runPrims env (set_cursorPrims col row) s

/-- `write(buf)`. -/
def write (env : Env) (buf : List Nat) (s : St) : Except Error Unit × St :=
  runPrims env (writePrims buf) s

/-- `write_str(text)`: a no-op on the empty string, else `write` on the
string's bytes. -/
def write_str (env : Env) (bytes : List Nat) (s : St) : Except Error Unit × St :=
  if bytes.isEmpty then (Except.ok (), s) else write env bytes s

/-- `no_display()`: clear the display-on bit of the mirror, then send the
display-control special command with the updated mirror. -/
def no_display (env : Env) (s : St) : Except Error Unit × St :=
  let s2 := { s with display_control := s.display_control &&& u8not LCD_DISPLAYON }
  special_command env (LCD_DISPLAYCONTROL ||| s2.display_control) s2

/-- `display()`: set the display-on bit of the mirror, then send the
display-control special command with the updated mirror. -/
def display (env : Env) (s : St) : Except Error Unit × St :=
  let s2 := { s with display_control := s.display_control ||| LCD_DISPLAYON }
  special_command env (LCD_DISPLAYCONTROL ||| s2.display_control) s2

/-- `no_cursor()`: clear the cursor-on bit of the mirror, then send the
display-control special command with the updated mirror. -/
def no_cursor (env : Env) (s : St) : Except Error Unit × St :=
  let s2 := { s with display_control := s.display_control &&& u8not LCD_CURSORON }
  special_command env (LCD_DISPLAYCONTROL ||| s2.display_control) s2

/-- `cursor()`: set the cursor-on bit of the mirror, then send the
display-control special command with the updated mirror. -/
def cursor (env : Env) (s : St) : Except Error Unit × St :=
  let s2 := { s with display_control := s.display_control ||| LCD_CURSORON }
  special_command env (LCD_DISPLAYCONTROL ||| s2.display_control) s2

/-- The state produced by `new`: display on, cursor off, blink off;
entry left, shift decrement; no interaction yet. -/
def new : St :=
  { display_control := LCD_DISPLAYON ||| LCD_CURSOROFF ||| LCD_BLINKOFF
    display_mode := LCD_ENTRYLEFT ||| LCD_ENTRYSHIFTDECREMENT
    lowCnt := 0
    highCnt := 0
    spiCnt := 0
    trace := [] }

/-- One public operation of the driver, with its arguments. -/
inductive Op where
  | setup : Op
  | command : Nat → Op
  | special_command : Nat → Op
  | special_command_count : Nat → Nat → Op
  | clear : Op
  | home : Op
  | set_cursor : Nat → Nat → Op
  | write : List Nat → Op
  | write_str : List Nat → Op
  | no_display : Op
  | display : Op
  | no_cursor : Op
  | cursor : Op

/-- Dispatch one public operation. -/
def runOp (env : Env) (op : Op) (s : St) : Except Error Unit × St :=
  match op with
  | Op.setup => setup env s
  | Op.command c => command env c s
  | Op.special_command c => special_command env c s
  | Op.special_command_count c n => special_command_count env c n s
  | Op.clear => clear env s
  | Op.home => home env s
  | Op.set_cursor col row => set_cursor env col row s
  | Op.write buf => write env buf s
  | Op.write_str bs => write_str env bs s
  | Op.no_display => no_display env s
  | Op.display => display env s
  | Op.no_cursor => no_cursor env s
  | Op.cursor => cursor env s

/-- Run a sequence of public operations, keeping the driver state across
calls whether each call succeeds or fails (as a caller holding the driver
object can). -/
def runOps (env : Env) (ops : List Op) (s : St) : St :=
  match ops with
  | [] => s
  | op :: rest => runOps env rest (runOp env op s).2

/-- The environment in which every capability call succeeds. -/
def okEnv : Env :=
  { lowOk := fun _ => true, highOk := fun _ => true, spiOk := fun _ => true }

/-- Total milliseconds spent in delay events of a trace. -/
def totalDelay : List Event → Nat
  | [] => 0
  | Event.delay ms :: rest => ms + totalDelay rest
  | _ :: rest => totalDelay rest

/-- Holds when every chip-select event of the trace is immediately followed
by a 10 ms delay event. -/
def csDelayOk : List Event → Bool
  | [] => true
  | Event.csLow :: rest =>
      (match rest with
       | Event.delay m :: _ => m == 10
       | _ => false) && csDelayOk rest
  | Event.csHigh :: rest =>
      (match rest with
       | Event.delay m :: _ => m == 10
       | _ => false) && csDelayOk rest
  | _ :: rest => csDelayOk rest

/-- Pure success-path state transformer of a primitive sequence. -/
def advance : List Prim → St → St
  | [], s => s
  | p :: rest, s => advance rest (applyPrim p s)

/-- Under the all-success environment a primitive succeeds and performs its
pure state update. -/
theorem runPrim_okEnv (p : Prim) (s : St) :
    runPrim okEnv p s = (Except.ok (), applyPrim p s) := by
  cases p <;> rfl

/-- Under the all-success environment a primitive sequence succeeds and
performs the composed pure state update. -/
theorem runPrims_okEnv (ps : List Prim) (s : St) :
    runPrims okEnv ps s = (Except.ok (), advance ps s) := by
  induction ps generalizing s with
  | nil => rfl
  | cons p rest ih => simp [runPrims, runPrim_okEnv, advance, ih]

theorem applyPrim_trace (p : Prim) (s : St) :
    (applyPrim p s).trace = s.trace ++ [eventOf p] := by
  cases p <;> rfl

theorem applyPrim_display_control (p : Prim) (s : St) :
    (applyPrim p s).display_control = s.display_control := by
  cases p <;> rfl

theorem applyPrim_display_mode (p : Prim) (s : St) :
    (applyPrim p s).display_mode = s.display_mode := by
  cases p <;> rfl

theorem advance_trace (ps : List Prim) (s : St) :
    (advance ps s).trace = s.trace ++ eventsOf ps := by
  induction ps generalizing s with
  | nil => simp [advance, eventsOf]
  | cons p rest ih => simp [advance, eventsOf, ih, applyPrim_trace]

theorem advance_display_control (ps : List Prim) (s : St) :
    (advance ps s).display_control = s.display_control := by
  induction ps generalizing s with
  | nil => rfl
  | cons p rest ih => simp [advance, ih, applyPrim_display_control]

theorem advance_display_mode (ps : List Prim) (s : St) :
    (advance ps s).display_mode = s.display_mode := by
  induction ps generalizing s with
  | nil => rfl
  | cons p rest ih => simp [advance, ih, applyPrim_display_mode]

/-- No primitive, succeeding or failing, touches the mirrored
`display_control` byte. -/
theorem runPrim_display_control (env : Env) (p : Prim) (s : St) :
    (runPrim env p s).2.display_control = s.display_control := by
  cases p <;> simp only [runPrim] <;> (try split) <;> simp [applyPrim]

/-- No primitive, succeeding or failing, touches the mirrored
`display_mode` byte. -/
theorem runPrim_display_mode (env : Env) (p : Prim) (s : St) :
    (runPrim env p s).2.display_mode = s.display_mode := by
  cases p <;> simp only [runPrim] <;> (try split) <;> simp [applyPrim]

theorem runPrims_display_control (env : Env) (ps : List Prim) (s : St) :
    (runPrims env ps s).2.display_control = s.display_control := by
  induction ps generalizing s with
  | nil => rfl
  | cons p rest ih =>
      rw [runPrims]
      rcases h : runPrim env p s with ⟨r, s2⟩
      have h2 : s2.display_control = s.display_control := by
        have h3 := runPrim_display_control env p s
        rw [h] at h3
        exact h3
      cases r with
      | ok u => simpa [h2] using ih s2
      | error e => simpa using h2

theorem runPrims_display_mode (env : Env) (ps : List Prim) (s : St) :
    (runPrims env ps s).2.display_mode = s.display_mode := by
  induction ps generalizing s with
  | nil => rfl
  | cons p rest ih =>
      rw [runPrims]
      rcases h : runPrim env p s with ⟨r, s2⟩
      have h2 : s2.display_mode = s.display_mode := by
        have h3 := runPrim_display_mode env p s
        rw [h] at h3
        exact h3
      cases r with
      | ok u => simpa [h2] using ih s2
      | error e => simpa using h2

/-- When every set-low call fails, a sequence starting with `setLow` fails
with the pin error and records nothing. -/
theorem runPrims_lowFail (hs ss : Nat → Bool) (ps : List Prim) (s : St) :
    runPrims { lowOk := fun _ => false, highOk := hs, spiOk := ss } (Prim.setLow :: ps) s =
      (Except.error Error.Pin, { s with lowCnt := s.lowCnt + 1 }) := by
  simp [runPrims, runPrim]

theorem testBit_four_of_ne (i : Nat) (h : i ≠ 2) : Nat.testBit 4 i = false := by
  have h4 : (4 : Nat) = 2 ^ 2 := by norm_num
  rw [h4]
  exact Nat.testBit_two_pow_of_ne (by omega)

theorem testBit_two_of_ne (i : Nat) (h : i ≠ 1) : Nat.testBit 2 i = false := by
  have h2 : (2 : Nat) = 2 ^ 1 := by norm_num
  rw [h2]
  exact Nat.testBit_two_pow_of_ne (by omega)

/-- Setting the display-on bit leaves every other u8 bit position of the
mirror unchanged. -/
theorem or_four_and_mask (dc : Nat) :
    (dc ||| 4) &&& u8not 4 = dc &&& u8not 4 := by
  have hm : u8not 4 = 251 := by decide
  rw [hm]
  apply Nat.eq_of_testBit_eq
  intro i
  by_cases h : i = 2
  · subst h
    have h251 : Nat.testBit 251 2 = false := by decide
    simp [Nat.testBit_and, h251]
  · simp [Nat.testBit_and, Nat.testBit_or, testBit_four_of_ne i h]

/-- Clearing the display-on bit is idempotent on the masked-out rest. -/
theorem and_four_and_mask (dc : Nat) :
    (dc &&& u8not 4) &&& u8not 4 = dc &&& u8not 4 := by
  rw [Nat.and_assoc]
  have : u8not 4 &&& u8not 4 = u8not 4 := Nat.and_self _
  rw [this]

/-- Setting the cursor-on bit leaves every other u8 bit position of the
mirror unchanged. -/
theorem or_two_and_mask (dc : Nat) :
    (dc ||| 2) &&& u8not 2 = dc &&& u8not 2 := by
  have hm : u8not 2 = 253 := by decide
  rw [hm]
  apply Nat.eq_of_testBit_eq
  intro i
  by_cases h : i = 1
  · subst h
    have h253 : Nat.testBit 253 1 = false := by decide
    simp [Nat.testBit_and, h253]
  · simp [Nat.testBit_and, Nat.testBit_or, testBit_two_of_ne i h]

/-- Clearing the cursor-on bit is idempotent on the masked-out rest. -/
theorem and_two_and_mask (dc : Nat) :
    (dc &&& u8not 2) &&& u8not 2 = dc &&& u8not 2 := by
  rw [Nat.and_assoc]
  have : u8not 2 &&& u8not 2 = u8not 2 := Nat.and_self _
  rw [this]

theorem or_four_lt (dc : Nat) (h : dc < 256) : dc ||| 4 < 256 := by
  have h1 : dc < 2 ^ 8 := by norm_num at h ⊢; exact h
  have h2 : (4 : Nat) < 2 ^ 8 := by norm_num
  have h3 := Nat.or_lt_two_pow h1 h2
  simpa using h3

theorem or_two_lt (dc : Nat) (h : dc < 256) : dc ||| 2 < 256 := by
  have h1 : dc < 2 ^ 8 := by norm_num at h ⊢; exact h
  have h2 : (2 : Nat) < 2 ^ 8 := by norm_num
  have h3 := Nat.or_lt_two_pow h1 h2
  simpa using h3

theorem and_mask_lt (dc m : Nat) (h : dc < 256) : dc &&& m < 256 :=
  Nat.lt_of_le_of_lt Nat.and_le_left h

theorem eventsOf_append (xs ys : List Prim) :
    eventsOf (xs ++ ys) = eventsOf xs ++ eventsOf ys := by
  simp [eventsOf]

/-- The events of a burst transaction body. -/
theorem eventsOf_special_count (c n : Nat) :
    eventsOf (special_command_countPrims c n) =
      [Event.csLow, Event.delay 10] ++
      (List.replicate n [Event.byte SPECIAL_COMMAND, Event.byte c]).flatten ++
      [Event.csHigh, Event.delay 10, Event.delay 50] := by
  simp [special_command_countPrims, eventsOf, begin_transmission, end_transmission, eventOf]

theorem count_flatten_replicate_pair (x y n : Nat) (e : Event)
    (hx : e ≠ Event.byte x) (hy : e ≠ Event.byte y) :
    ((List.replicate n [Event.byte x, Event.byte y]).flatten).count e = 0 := by
  induction n with
  | zero => rfl
  | succ n ih =>
      simp [List.replicate_succ, List.count_cons, ih, hx, hy]

theorem csDelayOk_byte_cons (b : Nat) (t : List Event) :
    csDelayOk (Event.byte b :: t) = csDelayOk t := rfl

theorem csDelayOk_bytes_append (bs : List Nat) (t : List Event) :
    csDelayOk (bs.map Event.byte ++ t) = csDelayOk t := by
  induction bs with
  | nil => rfl
  | cons b rest ih => simpa [csDelayOk_byte_cons] using ih

theorem csDelayOk_flatten_pair (x y n : Nat) (t : List Event) :
    csDelayOk ((List.replicate n [Event.byte x, Event.byte y]).flatten ++ t) = csDelayOk t := by
  induction n with
  | zero => rfl
  | succ n ih =>
      simpa [List.replicate_succ, csDelayOk_byte_cons] using ih

/-- Under the all-success environment, `special_command c` succeeds, emits one
special-framed transaction with payload `c` followed by the 50 ms trailing
delay, and leaves the mirrored bytes unchanged. -/
theorem special_command_trace (c : Nat) (s : St) :
    (special_command okEnv c s).1 = Except.ok () ∧
    (special_command okEnv c s).2.trace = s.trace ++
      [Event.csLow, Event.delay 10, Event.byte SPECIAL_COMMAND, Event.byte c,
       Event.csHigh, Event.delay 10, Event.delay 50] ∧
    (special_command okEnv c s).2.display_control = s.display_control ∧
    (special_command okEnv c s).2.display_mode = s.display_mode := by
  have h := runPrims_okEnv (special_commandPrims c) s
  refine ⟨?_, ?_, ?_, ?_⟩
  · rw [special_command, h]
  · rw [special_command, h]
    show (advance (special_commandPrims c) s).trace = _
    rw [advance_trace]
    simp [special_commandPrims, begin_transmission, end_transmission, eventsOf, eventOf]
  · rw [special_command, h]
    exact advance_display_control _ s
  · rw [special_command, h]
    exact advance_display_mode _ s

/-- C1: For every column value in [0,19] and every row value, `set_cursor`
emits exactly one special command (marker 0xFE then payload) whose payload is
`0x80 ||| (col + row_offsets[min(row,3)])` with offset table
{0x00, 0x40, 0x14, 0x54}; in particular every row value ≥ 4 is clamped to
row 3 and uses offset 0x54. -/
theorem set_cursor_payload_spec (col row : Nat) (hc : col ≤ 19) (s : St) :
    (set_cursor okEnv col row s).1 = Except.ok () ∧
    (set_cursor okEnv col row s).2.trace = s.trace ++
      [Event.csLow, Event.delay 10, Event.byte SPECIAL_COMMAND,
       Event.byte (LCD_SETDDRAMADDR ||| (col + row_offsets.getD (min row 3) 0)),
       Event.csHigh, Event.delay 10, Event.delay 50] ∧
    (4 ≤ row → row_offsets.getD (min row 3) 0 = 0x54) := by
  have hoffle : row_offsets.getD (min row 3) 0 ≤ 0x54 := by
    rcases row with _ | _ | _ | n
    · decide
    · decide
    · decide
    · have hmin : min (n + 3) 3 = 3 := by omega
      rw [hmin]
      decide
  have hpay : LCD_SETDDRAMADDR |||
        ((col + row_offsets.getD (min (max 0 row) (MAX_ROWS - 1)) 0) % 256) =
      LCD_SETDDRAMADDR ||| (col + row_offsets.getD (min row 3) 0) := by
    have h1 : max 0 row = row := by omega
    have h2 : MAX_ROWS - 1 = 3 := rfl
    rw [h1, h2, Nat.mod_eq_of_lt (by omega)]
  have heq : set_cursor okEnv col row s =
      special_command okEnv (LCD_SETDDRAMADDR ||| (col + row_offsets.getD (min row 3) 0)) s := by
    rw [set_cursor, special_command, set_cursorPrims, hpay]
  obtain ⟨ha, hb, -, -⟩ :=
    special_command_trace (LCD_SETDDRAMADDR ||| (col + row_offsets.getD (min row 3) 0)) s
  refine ⟨by rw [heq]; exact ha, by rw [heq]; exact hb, ?_⟩
  intro h4
  have hmin : min row 3 = 3 := by omega
  rw [hmin]
  decide

/-- Witness for C1 at column 5, row 7 (a row value that is clamped to 3). -/
theorem set_cursor_payload_spec_witness :
    5 ≤ 19 ∧
    ((set_cursor okEnv 5 7 new).1 = Except.ok () ∧
     (set_cursor okEnv 5 7 new).2.trace = new.trace ++
       [Event.csLow, Event.delay 10, Event.byte SPECIAL_COMMAND,
        Event.byte (LCD_SETDDRAMADDR ||| (5 + row_offsets.getD (min 7 3) 0)),
        Event.csHigh, Event.delay 10, Event.delay 50] ∧
     (4 ≤ 7 → row_offsets.getD (min 7 3) 0 = 0x54)) :=
  ⟨by decide, set_cursor_payload_spec 5 7 (by decide) new⟩

/-- C2: `setup()` opens exactly one transaction sending, in order, the
special-framed pair (0xFE, 0x08), the special-framed pair (0xFE, 0x04) and the
setting-framed pair (0x7C, 0x2D), closes it, and then sleeps 50 ms after the
transaction is closed. -/
theorem setup_spec (s : St) :
    (setup okEnv s).1 = Except.ok () ∧
    (setup okEnv s).2.trace = s.trace ++
      [Event.csLow, Event.delay 10,
       Event.byte SPECIAL_COMMAND, Event.byte LCD_DISPLAYCONTROL,
       Event.byte SPECIAL_COMMAND, Event.byte LCD_ENTRYMODESET,
       Event.byte SETTING_COMMAND, Event.byte CLEAR_COMMAND,
       Event.csHigh, Event.delay 10, Event.delay 50] := by
  have h := runPrims_okEnv setupPrims s
  refine ⟨by rw [setup, h], ?_⟩
  rw [setup, h]
  show (advance setupPrims s).trace = _
  rw [advance_trace]
  simp [setupPrims, begin_transmission, end_transmission, eventsOf, eventOf]

/-- C3: For every byte `c` and count `n`, `special_command_count c n` opens
exactly one transaction (one select assert and one deassert event in the
emitted trace), transmits the pair (0xFE, c) exactly `n` times inside that
transaction, closes it, and delays 50 ms; for `n = 0` it transmits no payload
bytes but still asserts and deasserts select and still delays 50 ms. -/
theorem special_command_count_spec (c n : Nat) (s : St) :
    (special_command_count okEnv c n s).1 = Except.ok () ∧
    (special_command_count okEnv c n s).2.trace = s.trace ++
      ([Event.csLow, Event.delay 10] ++
       (List.replicate n [Event.byte SPECIAL_COMMAND, Event.byte c]).flatten ++
       [Event.csHigh, Event.delay 10, Event.delay 50]) ∧
    (eventsOf (special_command_countPrims c n)).count Event.csLow = 1 ∧
    (eventsOf (special_command_countPrims c n)).count Event.csHigh = 1 ∧
    (special_command_count okEnv c 0 s).2.trace = s.trace ++
      [Event.csLow, Event.delay 10, Event.csHigh, Event.delay 10, Event.delay 50] := by
  have h := runPrims_okEnv (special_command_countPrims c n) s
  have h0 := runPrims_okEnv (special_command_countPrims c 0) s
  have hlow : Event.csLow ≠ Event.byte SPECIAL_COMMAND := by simp
  have hlowc : Event.csLow ≠ Event.byte c := by simp
  have hhigh : Event.csHigh ≠ Event.byte SPECIAL_COMMAND := by simp
  have hhighc : Event.csHigh ≠ Event.byte c := by simp
  refine ⟨by rw [special_command_count, h], ?_, ?_, ?_, ?_⟩
  · rw [special_command_count, h]
    show (advance (special_command_countPrims c n) s).trace = _
    rw [advance_trace, eventsOf_special_count]
  · rw [eventsOf_special_count]
    simp [count_flatten_replicate_pair _ _ n _ hlow hlowc, List.count_cons]
  · rw [eventsOf_special_count]
    simp [count_flatten_replicate_pair _ _ n _ hhigh hhighc, List.count_cons]
  · rw [special_command_count, h0]
    show (advance (special_command_countPrims c 0) s).trace = _
    rw [advance_trace, eventsOf_special_count]
    simp

/-- C8: `clear()` emits exactly one setting-framed transaction containing the
byte pair (0x7C, 0x2D), and the total time spent in delay calls during
`clear()` is 40 ms, in particular at least 20 ms (the 10 ms trailing delay
inside `command` plus the additional 10 ms delay performed by `clear`). -/
theorem clear_spec (s : St) :
    (clear okEnv s).1 = Except.ok () ∧
    (clear okEnv s).2.trace = s.trace ++
      [Event.csLow, Event.delay 10, Event.byte SETTING_COMMAND, Event.byte CLEAR_COMMAND,
       Event.csHigh, Event.delay 10, Event.delay 10, Event.delay 10] ∧
    totalDelay (eventsOf clearPrims) = 40 ∧
    20 ≤ totalDelay (eventsOf clearPrims) := by
  have h := runPrims_okEnv clearPrims s
  refine ⟨by rw [clear, h], ?_, by decide, by decide⟩
  rw [clear, h]
  show (advance clearPrims s).trace = _
  rw [advance_trace]
  simp [clearPrims, commandPrims, begin_transmission, end_transmission, eventsOf, eventOf]

theorem display_eq (env : Env) (s : St) :
    display env s = special_command env
      (LCD_DISPLAYCONTROL ||| (s.display_control ||| LCD_DISPLAYON))
      { s with display_control := s.display_control ||| LCD_DISPLAYON } := rfl

theorem no_display_eq (env : Env) (s : St) :
    no_display env s = special_command env
      (LCD_DISPLAYCONTROL ||| (s.display_control &&& u8not LCD_DISPLAYON))
      { s with display_control := s.display_control &&& u8not LCD_DISPLAYON } := rfl

theorem cursor_eq (env : Env) (s : St) :
    cursor env s = special_command env
      (LCD_DISPLAYCONTROL ||| (s.display_control ||| LCD_CURSORON))
      { s with display_control := s.display_control ||| LCD_CURSORON } := rfl

theorem no_cursor_eq (env : Env) (s : St) :
    no_cursor env s = special_command env
      (LCD_DISPLAYCONTROL ||| (s.display_control &&& u8not LCD_CURSORON))
      { s with display_control := s.display_control &&& u8not LCD_CURSORON } := rfl

/-- C4: From every starting `display_control` byte, `display()` and
`no_display()` drive only the display-on bit 0x04 and `cursor()` and
`no_cursor()` drive only the cursor-on bit 0x02 of the mirror: the designated
bit takes the operation's polarity, every other bit position is unchanged
(the mirror masked by the complement of the designated bit is unchanged and
stays a u8), and the operation then sends exactly one special command whose
payload is `0x08 ||| display_control` with the updated mirror. -/
theorem display_control_ops_spec (s : St) (hdc : s.display_control < 256) :
    ((display okEnv s).1 = Except.ok () ∧
     (display okEnv s).2.display_control = s.display_control ||| LCD_DISPLAYON ∧
     (display okEnv s).2.display_control < 256 ∧
     Nat.testBit (display okEnv s).2.display_control 2 = true ∧
     (display okEnv s).2.display_control &&& u8not LCD_DISPLAYON =
       s.display_control &&& u8not LCD_DISPLAYON ∧
     (display okEnv s).2.trace = s.trace ++
       [Event.csLow, Event.delay 10, Event.byte SPECIAL_COMMAND,
        Event.byte (LCD_DISPLAYCONTROL ||| (s.display_control ||| LCD_DISPLAYON)),
        Event.csHigh, Event.delay 10, Event.delay 50]) ∧
    ((no_display okEnv s).1 = Except.ok () ∧
     (no_display okEnv s).2.display_control = s.display_control &&& u8not LCD_DISPLAYON ∧
     (no_display okEnv s).2.display_control < 256 ∧
     Nat.testBit (no_display okEnv s).2.display_control 2 = false ∧
     (no_display okEnv s).2.display_control &&& u8not LCD_DISPLAYON =
       s.display_control &&& u8not LCD_DISPLAYON ∧
     (no_display okEnv s).2.trace = s.trace ++
       [Event.csLow, Event.delay 10, Event.byte SPECIAL_COMMAND,
        Event.byte (LCD_DISPLAYCONTROL ||| (s.display_control &&& u8not LCD_DISPLAYON)),
        Event.csHigh, Event.delay 10, Event.delay 50]) ∧
    ((cursor okEnv s).1 = Except.ok () ∧
     (cursor okEnv s).2.display_control = s.display_control ||| LCD_CURSORON ∧
     (cursor okEnv s).2.display_control < 256 ∧
     Nat.testBit (cursor okEnv s).2.display_control 1 = true ∧
     (cursor okEnv s).2.display_control &&& u8not LCD_CURSORON =
       s.display_control &&& u8not LCD_CURSORON ∧
     (cursor okEnv s).2.trace = s.trace ++
       [Event.csLow, Event.delay 10, Event.byte SPECIAL_COMMAND,
        Event.byte (LCD_DISPLAYCONTROL ||| (s.display_control ||| LCD_CURSORON)),
        Event.csHigh, Event.delay 10, Event.delay 50]) ∧
    ((no_cursor okEnv s).1 = Except.ok () ∧
     (no_cursor okEnv s).2.display_control = s.display_control &&& u8not LCD_CURSORON ∧
     (no_cursor okEnv s).2.display_control < 256 ∧
     Nat.testBit (no_cursor okEnv s).2.display_control 1 = false ∧
     (no_cursor okEnv s).2.display_control &&& u8not LCD_CURSORON =
       s.display_control &&& u8not LCD_CURSORON ∧
     (no_cursor okEnv s).2.trace = s.trace ++
       [Event.csLow, Event.delay 10, Event.byte SPECIAL_COMMAND,
        Event.byte (LCD_DISPLAYCONTROL ||| (s.display_control &&& u8not LCD_CURSORON)),
        Event.csHigh, Event.delay 10, Event.delay 50]) := by
  refine ⟨?_, ?_, ?_, ?_⟩
  · obtain ⟨h1, h2, h3, -⟩ := special_command_trace
      (LCD_DISPLAYCONTROL ||| (s.display_control ||| LCD_DISPLAYON))
      { s with display_control := s.display_control ||| LCD_DISPLAYON }
    rw [display_eq]
    refine ⟨h1, ?_, ?_, ?_, ?_, h2⟩
    · rw [h3]
    · rw [h3]
      exact or_four_lt _ hdc
    · rw [h3]
      have h4 : Nat.testBit 4 2 = true := by decide
      show Nat.testBit (s.display_control ||| LCD_DISPLAYON) 2 = true
      simp [LCD_DISPLAYON, Nat.testBit_or, h4]
    · rw [h3]
      exact or_four_and_mask _
  · obtain ⟨h1, h2, h3, -⟩ := special_command_trace
      (LCD_DISPLAYCONTROL ||| (s.display_control &&& u8not LCD_DISPLAYON))
      { s with display_control := s.display_control &&& u8not LCD_DISPLAYON }
    rw [no_display_eq]
    refine ⟨h1, ?_, ?_, ?_, ?_, h2⟩
    · rw [h3]
    · rw [h3]
      exact and_mask_lt _ _ hdc
    · rw [h3]
      have hm : u8not LCD_DISPLAYON = 251 := by decide
      have h251 : Nat.testBit 251 2 = false := by decide
      show Nat.testBit (s.display_control &&& u8not LCD_DISPLAYON) 2 = false
      simp [hm, Nat.testBit_and, h251]
    · rw [h3]
      exact and_four_and_mask _
  · obtain ⟨h1, h2, h3, -⟩ := special_command_trace
      (LCD_DISPLAYCONTROL ||| (s.display_control ||| LCD_CURSORON))
      { s with display_control := s.display_control ||| LCD_CURSORON }
    rw [cursor_eq]
    refine ⟨h1, ?_, ?_, ?_, ?_, h2⟩
    · rw [h3]
    · rw [h3]
      exact or_two_lt _ hdc
    · rw [h3]
      have h4 : Nat.testBit 2 1 = true := by decide
      show Nat.testBit (s.display_control ||| LCD_CURSORON) 1 = true
      simp [LCD_CURSORON, Nat.testBit_or, h4]
    · rw [h3]
      exact or_two_and_mask _
  · obtain ⟨h1, h2, h3, -⟩ := special_command_trace
      (LCD_DISPLAYCONTROL ||| (s.display_control &&& u8not LCD_CURSORON))
      { s with display_control := s.display_control &&& u8not LCD_CURSORON }
    rw [no_cursor_eq]
    refine ⟨h1, ?_, ?_, ?_, ?_, h2⟩
    · rw [h3]
    · rw [h3]
      exact and_mask_lt _ _ hdc
    · rw [h3]
      have hm : u8not LCD_CURSORON = 253 := by decide
      have h253 : Nat.testBit 253 1 = false := by decide
      show Nat.testBit (s.display_control &&& u8not LCD_CURSORON) 1 = false
      simp [hm, Nat.testBit_and, h253]
    · rw [h3]
      exact and_two_and_mask _

/-- Witness for C4 at the freshly constructed state. -/
theorem display_control_ops_spec_witness :
    new.display_control < 256 ∧
    (display okEnv new).2.display_control = new.display_control ||| LCD_DISPLAYON ∧
    (no_display okEnv new).2.display_control = new.display_control &&& u8not LCD_DISPLAYON ∧
    (cursor okEnv new).2.display_control = new.display_control ||| LCD_CURSORON ∧
    (no_cursor okEnv new).2.display_control = new.display_control &&& u8not LCD_CURSORON :=
  ⟨by decide,
   (display_control_ops_spec new (by decide)).1.2.1,
   (display_control_ops_spec new (by decide)).2.1.2.1,
   (display_control_ops_spec new (by decide)).2.2.1.2.1,
   (display_control_ops_spec new (by decide)).2.2.2.2.1⟩

/-- When asserting select fails, a sequence beginning with `setLow` records no
event and can only report the pin-failure error kind. -/
theorem runPrims_lowFail_spec (hs ss : Nat → Bool) (ps : List Prim) (s : St) :
    (runPrims { lowOk := fun _ => false, highOk := hs, spiOk := ss }
        (Prim.setLow :: ps) s).2.trace = s.trace ∧
    ∀ e, (runPrims { lowOk := fun _ => false, highOk := hs, spiOk := ss }
        (Prim.setLow :: ps) s).1 = Except.error e → e = Error.Pin := by
  constructor
  · rw [runPrims_lowFail]
  · intro e he
    rw [runPrims_lowFail] at he
    have h2 : Except.error Error.Pin = Except.error e := he
    injection h2 with h3
    exact h3.symm

/-- Specialization of `runPrims_lowFail_spec` to a transaction-shaped
sequence `begin_transmission ++ rest`. -/
theorem runPrims_beginFail_spec (hs ss : Nat → Bool) (rest : List Prim) (s : St) :
    (runPrims { lowOk := fun _ => false, highOk := hs, spiOk := ss }
        (begin_transmission ++ rest) s).2.trace = s.trace ∧
    ∀ e, (runPrims { lowOk := fun _ => false, highOk := hs, spiOk := ss }
        (begin_transmission ++ rest) s).1 = Except.error e → e = Error.Pin :=
  runPrims_lowFail_spec hs ss (Prim.delay 10 :: rest) s

/-- C5: For every public operation, if the select-line capability fails while
asserting select in `begin_transmission`, then no event at all (in particular
no payload byte) is recorded during that operation, and any error returned to
the caller is the line-failure kind `Error.Pin`, never `Error.Spi`. -/
theorem begin_fail_pin_spec (op : Op) (s : St) (hs ss : Nat → Bool) :
    (runOp { lowOk := fun _ => false, highOk := hs, spiOk := ss } op s).2.trace = s.trace ∧
    ∀ e, (runOp { lowOk := fun _ => false, highOk := hs, spiOk := ss } op s).1 =
        Except.error e → e = Error.Pin := by
  cases op with
  | setup =>
      simp only [runOp, setup, setupPrims, List.append_assoc]
      exact runPrims_beginFail_spec hs ss _ s
  | command c =>
      simp only [runOp, command, commandPrims, List.append_assoc]
      exact runPrims_beginFail_spec hs ss _ s
  | special_command c =>
      simp only [runOp, special_command, special_commandPrims, List.append_assoc]
      exact runPrims_beginFail_spec hs ss _ s
  | special_command_count c n =>
      simp only [runOp, special_command_count, special_command_countPrims, List.append_assoc]
      exact runPrims_beginFail_spec hs ss _ s
  | clear =>
      simp only [runOp, clear, clearPrims, commandPrims, List.append_assoc]
      exact runPrims_beginFail_spec hs ss _ s
  | home =>
      simp only [runOp, home, homePrims, special_commandPrims, List.append_assoc]
      exact runPrims_beginFail_spec hs ss _ s
  | set_cursor col row =>
      simp only [runOp, set_cursor, set_cursorPrims, special_commandPrims, List.append_assoc]
      exact runPrims_beginFail_spec hs ss _ s
  | write buf =>
      simp only [runOp, write, writePrims, List.append_assoc]
      exact runPrims_beginFail_spec hs ss _ s
  | write_str bs =>
      cases bs with
      | nil =>
          refine ⟨rfl, ?_⟩
          intro e he
          simp [runOp, write_str] at he
      | cons b rest =>
          have hred : runOp { lowOk := fun _ => false, highOk := hs, spiOk := ss }
              (Op.write_str (b :: rest)) s =
              write { lowOk := fun _ => false, highOk := hs, spiOk := ss } (b :: rest) s := rfl
          rw [hred]
          simp only [write, writePrims, List.append_assoc]
          exact runPrims_beginFail_spec hs ss _ s
  | no_display =>
      simp only [runOp, no_display, special_command, special_commandPrims, List.append_assoc]
      exact runPrims_beginFail_spec hs ss _ _
  | display =>
      simp only [runOp, display, special_command, special_commandPrims, List.append_assoc]
      exact runPrims_beginFail_spec hs ss _ _
  | no_cursor =>
      simp only [runOp, no_cursor, special_command, special_commandPrims, List.append_assoc]
      exact runPrims_beginFail_spec hs ss _ _
  | cursor =>
      simp only [runOp, cursor, special_command, special_commandPrims, List.append_assoc]
      exact runPrims_beginFail_spec hs ss _ _

theorem eventsOf_map_transmit (buf : List Nat) :
    eventsOf (buf.map Prim.transmit) = buf.map Event.byte := by
  simp [eventsOf, List.map_map]
  intro a ha
  rfl

/-- The events of a raw-write transaction body. -/
theorem eventsOf_writePrims (bs : List Nat) :
    eventsOf (writePrims bs) =
      [Event.csLow, Event.delay 10] ++ bs.map Event.byte ++
      [Event.csHigh, Event.delay 10, Event.delay 10] := by
  simp [writePrims, begin_transmission, end_transmission, eventsOf_append,
    eventsOf_map_transmit]
  simp [eventsOf, eventOf]

/-- C6: `write_str` on the empty string is a complete no-op (no bytes, no
transaction, no delay, state untouched); on a non-empty string it opens
exactly one transaction and transmits exactly the string's bytes raw, with no
marker bytes, inside that transaction ("Hi" = bytes 0x48 0x69 shown
concretely). -/
theorem write_str_spec (s : St) (b : Nat) (rest : List Nat) :
    write_str okEnv [] s = (Except.ok (), s) ∧
    (write_str okEnv (b :: rest) s).1 = Except.ok () ∧
    (write_str okEnv (b :: rest) s).2.trace =
      s.trace ++ [Event.csLow, Event.delay 10] ++ (b :: rest).map Event.byte ++
      [Event.csHigh, Event.delay 10, Event.delay 10] ∧
    (write_str okEnv [0x48, 0x69] s).2.trace =
      s.trace ++ [Event.csLow, Event.delay 10, Event.byte 0x48, Event.byte 0x69,
        Event.csHigh, Event.delay 10, Event.delay 10] := by
  have hw := eventsOf_writePrims
  have hred : write_str okEnv (b :: rest) s = write okEnv (b :: rest) s := rfl
  have hred2 : write_str okEnv [0x48, 0x69] s = write okEnv [0x48, 0x69] s := rfl
  have h1 := runPrims_okEnv (writePrims (b :: rest)) s
  have h2 := runPrims_okEnv (writePrims [0x48, 0x69]) s
  refine ⟨rfl, ?_, ?_, ?_⟩
  · rw [hred, write, h1]
  · rw [hred, write, h1]
    show (advance (writePrims (b :: rest)) s).trace = _
    rw [advance_trace, hw]
    simp
  · rw [hred2, write, h2]
    show (advance (writePrims [0x48, 0x69]) s).trace = _
    rw [advance_trace, hw]
    simp

/-- C7: `set_cursor` never validates the column: for every column value
(including values of 20 and beyond, and values where `col + offset` exceeds
255) it completes successfully, and the emitted payload is
`0x80 ||| ((col + offset[min(row,3)]) mod 256)` — the u8 address arithmetic
silently wraps; concretely, column 236 on row 3 emits the very same trace as
column 0 on row 1 (the address wrapped into another row's address space). -/
theorem set_cursor_no_validation (col row : Nat) (s : St) :
    (set_cursor okEnv col row s).1 = Except.ok () ∧
    (set_cursor okEnv col row s).2.trace = s.trace ++
      [Event.csLow, Event.delay 10, Event.byte SPECIAL_COMMAND,
       Event.byte (LCD_SETDDRAMADDR ||| ((col + row_offsets.getD (min row 3) 0) % 256)),
       Event.csHigh, Event.delay 10, Event.delay 50] ∧
    (set_cursor okEnv 236 3 s).2.trace = (set_cursor okEnv 0 1 s).2.trace := by
  have hpay : LCD_SETDDRAMADDR |||
        ((col + row_offsets.getD (min (max 0 row) (MAX_ROWS - 1)) 0) % 256) =
      LCD_SETDDRAMADDR ||| ((col + row_offsets.getD (min row 3) 0) % 256) := by
    have h1 : max 0 row = row := by omega
    have h2 : MAX_ROWS - 1 = 3 := rfl
    rw [h1, h2]
  have heq : set_cursor okEnv col row s =
      special_command okEnv
        (LCD_SETDDRAMADDR ||| ((col + row_offsets.getD (min row 3) 0) % 256)) s := by
    rw [set_cursor, special_command, set_cursorPrims, hpay]
  obtain ⟨ha, hb, -, -⟩ := special_command_trace
    (LCD_SETDDRAMADDR ||| ((col + row_offsets.getD (min row 3) 0) % 256)) s
  have hlist : set_cursorPrims 236 3 = set_cursorPrims 0 1 := by decide
  refine ⟨by rw [heq]; exact ha, by rw [heq]; exact hb, ?_⟩
  rw [set_cursor, set_cursor, hlist]

/-- No public operation, under any environment, modifies `display_mode`. -/
theorem runOp_display_mode (env : Env) (op : Op) (s : St) :
    (runOp env op s).2.display_mode = s.display_mode := by
  cases op with
  | write_str bs =>
      cases bs with
      | nil => rfl
      | cons b rest =>
          have hred : runOp env (Op.write_str (b :: rest)) s = write env (b :: rest) s := rfl
          rw [hred, write]
          exact runPrims_display_mode env _ s
  | setup => exact runPrims_display_mode env _ s
  | command c => exact runPrims_display_mode env _ s
  | special_command c => exact runPrims_display_mode env _ s
  | special_command_count c n => exact runPrims_display_mode env _ s
  | clear => exact runPrims_display_mode env _ s
  | home => exact runPrims_display_mode env _ s
  | set_cursor col row => exact runPrims_display_mode env _ s
  | write buf => exact runPrims_display_mode env _ s
  | no_display => exact runPrims_display_mode env _ _
  | display => exact runPrims_display_mode env _ _
  | no_cursor => exact runPrims_display_mode env _ _
  | cursor => exact runPrims_display_mode env _ _

/-- No public operation, under any environment, sets the blink bit (bit 0)
of the mirrored `display_control` byte. -/
theorem runOp_blink_bit (env : Env) (op : Op) (s : St)
    (h : Nat.testBit s.display_control 0 = false) :
    Nat.testBit (runOp env op s).2.display_control 0 = false := by
  cases op with
  | write_str bs =>
      cases bs with
      | nil => exact h
      | cons b rest =>
          have hred : runOp env (Op.write_str (b :: rest)) s = write env (b :: rest) s := rfl
          rw [hred, write, runPrims_display_control]
          exact h
  | setup => rw [runOp, setup, runPrims_display_control]; exact h
  | command c => rw [runOp, command, runPrims_display_control]; exact h
  | special_command c => rw [runOp, special_command, runPrims_display_control]; exact h
  | special_command_count c n =>
      rw [runOp, special_command_count, runPrims_display_control]; exact h
  | clear => rw [runOp, clear, runPrims_display_control]; exact h
  | home => rw [runOp, home, runPrims_display_control]; exact h
  | set_cursor col row => rw [runOp, set_cursor, runPrims_display_control]; exact h
  | write buf => rw [runOp, write, runPrims_display_control]; exact h
  | display =>
      have h4 : Nat.testBit 4 0 = false := by decide
      rw [runOp, display_eq, special_command, runPrims_display_control]
      show Nat.testBit (s.display_control ||| 4) 0 = false
      rw [Nat.testBit_or, h, Bool.false_or]
      exact h4
  | no_display =>
      rw [runOp, no_display_eq, special_command, runPrims_display_control]
      show Nat.testBit (s.display_control &&& u8not 4) 0 = false
      rw [Nat.testBit_and, h, Bool.false_and]
  | cursor =>
      have h2 : Nat.testBit 2 0 = false := by decide
      rw [runOp, cursor_eq, special_command, runPrims_display_control]
      show Nat.testBit (s.display_control ||| 2) 0 = false
      rw [Nat.testBit_or, h, Bool.false_or]
      exact h2
  | no_cursor =>
      rw [runOp, no_cursor_eq, special_command, runPrims_display_control]
      show Nat.testBit (s.display_control &&& u8not 2) 0 = false
      rw [Nat.testBit_and, h, Bool.false_and]

theorem runOps_invariant (env : Env) (ops : List Op) (s : St)
    (hm : s.display_mode = 2) (hb : Nat.testBit s.display_control 0 = false) :
    (runOps env ops s).display_mode = 2 ∧
    Nat.testBit (runOps env ops s).display_control 0 = false := by
  induction ops generalizing s with
  | nil => exact ⟨hm, hb⟩
  | cons op rest ih =>
      simp only [runOps]
      exact ih _ (by rw [runOp_display_mode]; exact hm) (runOp_blink_bit env op s hb)

/-- C9: In every state reachable from construction through any sequence of
public operations under any environment, `display_mode` equals its initial
value 0x02 (entry-left, shift-decrement) and the blink bit 0x01 of
`display_control` is clear: no public operation modifies `display_mode` and
none sets the blink bit. -/
theorem reachable_state_invariant (env : Env) (ops : List Op) :
    (runOps env ops new).display_mode = LCD_ENTRYLEFT ||| LCD_ENTRYSHIFTDECREMENT ∧
    Nat.testBit (runOps env ops new).display_control 0 = false ∧
    new.display_mode = LCD_ENTRYLEFT ||| LCD_ENTRYSHIFTDECREMENT ∧
    LCD_ENTRYLEFT ||| LCD_ENTRYSHIFTDECREMENT = 0x02 := by
  have h := runOps_invariant env ops new rfl (by decide)
  exact ⟨h.1, h.2, rfl, by decide⟩

theorem csDelayOk_nil : csDelayOk [] = true := rfl

theorem csDelayOk_delay_cons (m : Nat) (t : List Event) :
    csDelayOk (Event.delay m :: t) = csDelayOk t := rfl

theorem csDelayOk_csLow_delay (m : Nat) (t : List Event) :
    csDelayOk (Event.csLow :: Event.delay m :: t) =
      ((m == 10) && csDelayOk (Event.delay m :: t)) := rfl

theorem csDelayOk_csHigh_delay (m : Nat) (t : List Event) :
    csDelayOk (Event.csHigh :: Event.delay m :: t) =
      ((m == 10) && csDelayOk (Event.delay m :: t)) := rfl

/-- C10: Every operation that opens a transaction blocks for 10 ms immediately
after asserting the select line (inside `begin_transmission`, before any byte
is transmitted) and for another 10 ms immediately after deasserting it (inside
`end_transmission`), in addition to the operation's trailing delay: in every
public operation's emitted trace each chip-select event is immediately
followed by a 10 ms delay event, and a single `command(byte)` call performs
30 ms of total delay, not 10 ms. -/
theorem transaction_delay_spec (op : Op) (c : Nat) (s : St) :
    eventsOf begin_transmission = [Event.csLow, Event.delay 10] ∧
    eventsOf end_transmission = [Event.csHigh, Event.delay 10] ∧
    csDelayOk ((runOp okEnv op { s with trace := [] }).2.trace) = true ∧
    (command okEnv c s).2.trace = s.trace ++
      [Event.csLow, Event.delay 10, Event.byte SETTING_COMMAND, Event.byte c,
       Event.csHigh, Event.delay 10, Event.delay 10] ∧
    totalDelay (eventsOf (commandPrims c)) = 30 := by
  refine ⟨rfl, rfl, ?_, ?_, rfl⟩
  · cases op with
    | setup =>
        rw [runOp, setup, runPrims_okEnv]
        show csDelayOk ((advance setupPrims { s with trace := [] }).trace) = true
        rw [advance_trace]
        rfl
    | command c2 =>
        rw [runOp, command, runPrims_okEnv]
        show csDelayOk ((advance (commandPrims c2) { s with trace := [] }).trace) = true
        rw [advance_trace]
        rfl
    | special_command c2 =>
        rw [runOp, special_command, runPrims_okEnv]
        show csDelayOk ((advance (special_commandPrims c2) { s with trace := [] }).trace) = true
        rw [advance_trace]
        rfl
    | special_command_count c2 n =>
        rw [runOp, special_command_count, runPrims_okEnv]
        show csDelayOk
          ((advance (special_command_countPrims c2 n) { s with trace := [] }).trace) = true
        rw [advance_trace, eventsOf_special_count]
        show csDelayOk (Event.csLow :: Event.delay 10 ::
          ((List.replicate n [Event.byte SPECIAL_COMMAND, Event.byte c2]).flatten ++
           [Event.csHigh, Event.delay 10, Event.delay 50])) = true
        rw [csDelayOk_csLow_delay, csDelayOk_delay_cons, csDelayOk_flatten_pair]
        rfl
    | clear =>
        rw [runOp, clear, runPrims_okEnv]
        show csDelayOk ((advance clearPrims { s with trace := [] }).trace) = true
        rw [advance_trace]
        rfl
    | home =>
        rw [runOp, home, runPrims_okEnv]
        show csDelayOk ((advance homePrims { s with trace := [] }).trace) = true
        rw [advance_trace]
        rfl
    | set_cursor col row =>
        rw [runOp, set_cursor, runPrims_okEnv]
        show csDelayOk ((advance (set_cursorPrims col row) { s with trace := [] }).trace) = true
        rw [advance_trace]
        rfl
    | write buf =>
        rw [runOp, write, runPrims_okEnv]
        show csDelayOk ((advance (writePrims buf) { s with trace := [] }).trace) = true
        rw [advance_trace, eventsOf_writePrims]
        show csDelayOk (Event.csLow :: Event.delay 10 ::
          (buf.map Event.byte ++ [Event.csHigh, Event.delay 10, Event.delay 10])) = true
        rw [csDelayOk_csLow_delay, csDelayOk_delay_cons, csDelayOk_bytes_append]
        rfl
    | write_str bs =>
        cases bs with
        | nil => rfl
        | cons b rest =>
            have hred : runOp okEnv (Op.write_str (b :: rest)) { s with trace := [] } =
                write okEnv (b :: rest) { s with trace := [] } := rfl
            rw [hred, write, runPrims_okEnv]
            show csDelayOk
              ((advance (writePrims (b :: rest)) { s with trace := [] }).trace) = true
            rw [advance_trace, eventsOf_writePrims]
            show csDelayOk (Event.csLow :: Event.delay 10 ::
              ((b :: rest).map Event.byte ++
               [Event.csHigh, Event.delay 10, Event.delay 10])) = true
            rw [csDelayOk_csLow_delay, csDelayOk_delay_cons, csDelayOk_bytes_append]
            rfl
    | no_display =>
        rw [runOp, no_display_eq, special_command, runPrims_okEnv]
        rw [advance_trace]
        rfl
    | display =>
        rw [runOp, display_eq, special_command, runPrims_okEnv]
        rw [advance_trace]
        rfl
    | no_cursor =>
        rw [runOp, no_cursor_eq, special_command, runPrims_okEnv]
        rw [advance_trace]
        rfl
    | cursor =>
        rw [runOp, cursor_eq, special_command, runPrims_okEnv]
        rw [advance_trace]
        rfl
  · have h := runPrims_okEnv (commandPrims c) s
    rw [command, h]
    show (advance (commandPrims c) s).trace = _
    rw [advance_trace]
    simp [commandPrims, begin_transmission, end_transmission, eventsOf, eventOf]

end SerLCD
